import Mathlib

/-!
Shallow embedding of `paragor/tailscale-exporter` (src/main.go) in Lean 4,
together with theorems settling the specification claims about it.

The embedding keeps the Go source's names where Lean allows it.  Strings are
Lean `String`s; Go `int` fields are Lean `Int`; Go slices are Lean `List`s.
The Go `Peer` map is modelled as an association list in iteration order
(Go map iteration order is unspecified, so every statement quantifies over
the list).  Sending a metric on the collector channel is modelled by
appending a `Sample` to the emitted list; a Go `panic` (index out of range
or an explicit `panic`) is modelled as an `Option` error value alongside the
samples emitted before the panic.
-/

/-- Node fields of `TailscaleStatus.Self` used by the program
(src/main.go lines 25-54; fields the program never reads are omitted). -/
structure SelfNode where
  id : String
  hostName : String
  dnsName : String
  tailscaleIPs : List String
  rxBytes : Int
  txBytes : Int
  deriving DecidableEq

/-- Node fields of a `TailscaleStatus.Peer` entry used by the program
(src/main.go lines 61-89; unread fields omitted). -/
structure PeerNode where
  hostName : String
  dnsName : String
  tailscaleIPs : List String
  userID : Int
  rxBytes : Int
  txBytes : Int
  deriving DecidableEq

/-- The decoded status snapshot (src/main.go `TailscaleStatus`).  `peer`
is the `Peer` map as an association list in iteration order. -/
structure TailscaleStatus where
  self : SelfNode
  peer : List (String × PeerNode)
  deriving DecidableEq

/-- The label names, in order (src/main.go line 101 `dynLabels`). -/
def dynLabels : List String :=
  ["id", "name", "given_name", "ip", "peer_name", "peer_given_name",
   "peer_ip", "peer_user_id"]

/-- The two metric descriptors (src/main.go lines 102-103). -/
inductive MetricDesc where
  | peerRx
  | peerTx
  deriving DecidableEq

/-- One sample sent on the collector channel: descriptor, counter value and
the ordered label values (positionally matching `dynLabels`). -/
structure Sample where
  desc : MetricDesc
  value : Int
  labels : List String
  deriving DecidableEq

/-- Go `strings.Split` for a one-character separator, on the character
list of the string (src/main.go lines 121 and 126 use
`strings.Split(name, ".")`).  Go's `Split` always returns at least one
element; the empty string splits to one empty field. -/
def splitGo (sep : Char) : List Char → List (List Char)
  | [] => [[]]
  | c :: cs =>
    if c = sep then [] :: splitGo sep cs
    else
      match splitGo sep cs with
      | [] => [[c]]
      | p :: ps => (c :: p) :: ps

/-- Go `strings.Split(s, ".")[0]` (src/main.go lines 121, 126). -/
def givenName (s : String) : String :=
  ⟨(splitGo '.' s.data).headD []⟩

/-- Errors with which `Collector.Collect` can panic mid-scrape:
`selfNoAddress` models the index-out-of-range panic at
`status.Self.TailscaleIPs[0]` (line 122), `peerNoAddress k` the analogous
panic at `peer.TailscaleIPs[0]` (line 127) for the peer keyed `k`. -/
inductive CollectPanic where
  | selfNoAddress
  | peerNoAddress (key : String)
  deriving DecidableEq

/-- The constant label template built once from `self`
(src/main.go lines 118-122): `make([]string, 8)` then indices 0-3
assigned.  Returns `none` when `Self.TailscaleIPs` is empty, modelling the
index-out-of-range panic at line 122. -/
def mkTemplate (s : SelfNode) : Option (List String) :=
  match s.tailscaleIPs with
  | [] => none
  | ip :: _ =>
    some [s.id, s.hostName, givenName s.dnsName, ip, "", "", "", ""]

/-- The peer loop of `Collector.Collect` (src/main.go lines 123-132):
clone the template, assign indices 4-7 from the peer, emit the rx sample
then the tx sample.  Returns the samples sent on the channel before any
panic, and the panic if one occurred. -/
def collectPeers (t : List String) :
    List (String × PeerNode) → List Sample × Option CollectPanic
  | [] => ([], none)
  | (k, p) :: rest =>
    match p.tailscaleIPs with
    | [] => ([], some (.peerNoAddress k))
    | ip :: _ =>
      let labels := t.take 4 ++
        [p.hostName, givenName p.dnsName, ip, toString p.userID]
      let here : List Sample :=
        [⟨.peerRx, p.rxBytes, labels⟩, ⟨.peerTx, p.txBytes, labels⟩]
      let (ss, e) := collectPeers t rest
      (here ++ ss, e)

/-- `Collector.Collect` on an already decoded snapshot
(src/main.go lines 118-133): build the template from `self`, then run the
peer loop.  The result is the list of samples sent on the channel and the
panic, if any, that aborted the scrape. -/
def Collect (st : TailscaleStatus) : List Sample × Option CollectPanic :=
  match mkTemplate st.self with
  | none => ([], some .selfNoAddress)
  | some t => collectPeers t st.peer

/-- The outcome of running the external `tailscale status -json` command
(src/main.go lines 139-142).  `exitCode ≠ 0` models `cmd.Run()` returning a
non-nil error (non-zero exit; start failure and deadline expiry are folded
into the same case, as `Run` reports them the same way). -/
structure CmdResult where
  exitCode : Nat
  stdout : String
  stderr : String
  deriving DecidableEq

/-- The error cases of `TailscaleGetStatus` (src/main.go lines 144, 148):
`commandFailure` carries the stderr text, `decodeFailure` the stdout
text. -/
inductive FetchError where
  | commandFailure (stderr : String)
  | decodeFailure (stdout : String)
  deriving DecidableEq

/-- `TailscaleGetStatus` (src/main.go lines 136-151).  `decode` stands for
`json.Unmarshal` on the captured stdout (an external library, passed as a
parameter): `none` means unmarshalling failed. -/
def TailscaleGetStatus (decode : String → Option TailscaleStatus)
    (r : CmdResult) : Except FetchError TailscaleStatus :=
  if r.exitCode ≠ 0 then .error (.commandFailure r.stderr)
  else
    match decode r.stdout with
    | none => .error (.decodeFailure r.stdout)
    | some st => .ok st

/-- Error result of `getListenAddr` (src/main.go lines 153-167). -/
inductive GetAddrError where
  | fetchFailed (e : FetchError)
  | noIps
  deriving DecidableEq

/-- `getListenAddr` (src/main.go lines 153-167) applied to the result of
its `TailscaleGetStatus` call: propagate a fetch error, error when
`Self.TailscaleIPs` is empty, otherwise return `ips[0]`. -/
def getListenAddr :
    Except FetchError TailscaleStatus → Except GetAddrError String
  | .error e => .error (.fetchFailed e)
  | .ok st =>
    match st.self.tailscaleIPs with
    | [] => .error .noIps
    | ip :: _ => .ok ip

/-- One watchdog tick's fetch outcome, as the watchdog goroutine sees it
(src/main.go line 178): either `getListenAddr` failed, or it returned an
address. -/
inductive FetchOutcome where
  | failure
  | success (ip : String)
  deriving DecidableEq

/-- Reason the watchdog terminated the process: `fetchExhaustion` is the
`panic` at line 182, `identityDrift` the `log.Fatalf` at line 187. -/
inductive TermReason where
  | fetchExhaustion
  | identityDrift (oldIp newIp : String)
  deriving DecidableEq

/-- Watchdog state: still looping with the current value of the `errors`
counter, or terminated (process exit). -/
inductive WatchState where
  | running (errors : Nat)
  | terminated (r : TermReason)
  deriving DecidableEq

/-- One iteration of the watchdog loop body (src/main.go lines 178-189),
with `ip` the boot address and `errors` the counter: on fetch error,
increment and panic when the counter exceeds 20; on success, fatal when the
observed address differs from the boot address, otherwise keep looping with
the counter unchanged. -/
def watchdogStep (bootIp : String) (errors : Nat) :
    FetchOutcome → WatchState
  | .failure =>
    let e := errors + 1
    if e > 20 then .terminated .fetchExhaustion else .running e
  | .success newIp =>
    if newIp ≠ bootIp then .terminated (.identityDrift bootIp newIp)
    else .running errors

/-- The watchdog loop (src/main.go lines 175-191) driven by a list of tick
fetch outcomes, starting from counter `errors`; termination is absorbing. -/
def watchdogRun (bootIp : String) (errors : Nat) :
    List FetchOutcome → WatchState
  | [] => .running errors
  | o :: rest =>
    match watchdogStep bootIp errors o with
    | .running e => watchdogRun bootIp e rest
    | .terminated r => .terminated r

/-- The fetch outcome a watchdog tick derives from its
`getListenAddr` call (src/main.go lines 178-179). -/
def tickOutcome (fetch : Except FetchError TailscaleStatus) : FetchOutcome :=
  match getListenAddr fetch with
  | .error _ => .failure
  | .ok ip => .success ip

/-- The constant label template for a self node with at least one address
(the value `mkTemplate` returns in that case). -/
def templateOf (s : SelfNode) : List String :=
  [s.id, s.hostName, givenName s.dnsName, s.tailscaleIPs.headD "", "", "", "", ""]

/-- The two samples the peer loop emits for one peer entry, given the
template `t` (closed form of one good iteration of `collectPeers`). -/
def peerSamples (t : List String) (kp : String × PeerNode) : List Sample :=
  let labels := t.take 4 ++
    [kp.2.hostName, givenName kp.2.dnsName, kp.2.tailscaleIPs.headD "",
     toString kp.2.userID]
  [⟨.peerRx, kp.2.rxBytes, labels⟩, ⟨.peerTx, kp.2.txBytes, labels⟩]

/- Helper lemmas. -/

lemma splitGo_ne_nil (sep : Char) (l : List Char) : splitGo sep l ≠ [] := by
  cases l with
  | nil => simp [splitGo]
  | cons c cs =>
    by_cases h : c = sep
    · simp [splitGo, h]
    · simp only [splitGo, if_neg h]
      cases splitGo sep cs <;> simp

lemma splitGo_headD (sep : Char) (l : List Char) :
    (splitGo sep l).headD [] = l.takeWhile (fun c => c != sep) := by
  induction l with
  | nil => simp [splitGo]
  | cons c cs ih =>
    by_cases h : c = sep
    · simp [splitGo, h]
    · simp only [splitGo, if_neg h]
      cases hs : splitGo sep cs with
      | nil => exact absurd hs (splitGo_ne_nil sep cs)
      | cons p ps =>
        rw [hs] at ih
        simp only [List.headD] at ih ⊢
        simp [List.takeWhile_cons, h, ih]

lemma givenName_data (s : String) :
    (givenName s).data = s.data.takeWhile (fun c => c != '.') :=
  splitGo_headD '.' s.data

lemma mkTemplate_eq (s : SelfNode) (h : s.tailscaleIPs ≠ []) :
    mkTemplate s = some (templateOf s) := by
  cases hip : s.tailscaleIPs with
  | nil => exact absurd hip h
  | cons ip rest => simp [mkTemplate, templateOf, hip]

lemma collectPeers_ok (t : List String) (l : List (String × PeerNode))
    (h : ∀ kp ∈ l, kp.2.tailscaleIPs ≠ ([] : List String)) :
    collectPeers t l = (l.flatMap (peerSamples t), none) := by
  induction l with
  | nil => simp [collectPeers]
  | cons kp rest ih =>
    obtain ⟨k, p⟩ := kp
    cases hip : p.tailscaleIPs with
    | nil => exact absurd hip (h (k, p) (List.mem_cons_self _ _))
    | cons ip ips =>
      have hrest : ∀ kp ∈ rest, kp.2.tailscaleIPs ≠ ([] : List String) :=
        fun kp hm => h kp (List.mem_cons_of_mem _ hm)
      simp only [collectPeers, hip, ih hrest, List.flatMap_cons]
      simp [peerSamples, hip]

lemma Collect_ok (st : TailscaleStatus)
    (hself : st.self.tailscaleIPs ≠ [])
    (hpeers : ∀ kp ∈ st.peer, kp.2.tailscaleIPs ≠ ([] : List String)) :
    Collect st = (st.peer.flatMap (peerSamples (templateOf st.self)), none) := by
  simp only [Collect, mkTemplate_eq st.self hself]
  exact collectPeers_ok _ _ hpeers

lemma collectPeers_aborts (t : List String) (pre : List (String × PeerNode))
    (k : String) (bad : PeerNode) (post : List (String × PeerNode))
    (hpre : ∀ kp ∈ pre, kp.2.tailscaleIPs ≠ ([] : List String))
    (hbad : bad.tailscaleIPs = []) :
    collectPeers t (pre ++ (k, bad) :: post) =
      (pre.flatMap (peerSamples t), some (.peerNoAddress k)) := by
  induction pre with
  | nil => simp [collectPeers, hbad]
  | cons kp rest ih =>
    obtain ⟨k0, p0⟩ := kp
    cases hip : p0.tailscaleIPs with
    | nil => exact absurd hip (hpre (k0, p0) (List.mem_cons_self _ _))
    | cons ip ips =>
      have hrest : ∀ kp ∈ rest, kp.2.tailscaleIPs ≠ ([] : List String) :=
        fun kp hm => hpre kp (List.mem_cons_of_mem _ hm)
      simp only [List.cons_append, collectPeers, hip, List.flatMap_cons,
        List.append_eq]
      rw [ih hrest]
      simp [peerSamples, hip]

lemma watchdogStep_success_self (bootIp : String) (e : Nat) :
    watchdogStep bootIp e (.success bootIp) = .running e := by
  simp [watchdogStep]

lemma watchdogRun_failures (bootIp : String) (e k : Nat) (h : e + k ≤ 20) :
    watchdogRun bootIp e (List.replicate k .failure) = .running (e + k) := by
  induction k generalizing e with
  | zero => simp [watchdogRun]
  | succ k ih =>
    have h1 : ¬ e + 1 > 20 := by omega
    have h2 : (e + 1) + k ≤ 20 := by omega
    simp only [List.replicate_succ, watchdogRun, watchdogStep, if_neg h1]
    rw [ih (e + 1) h2]
    congr 1
    omega

lemma watchdogRun_failures_then (bootIp : String) (e k : Nat)
    (rest : List FetchOutcome) (h : e + k ≤ 20) :
    watchdogRun bootIp e (List.replicate k .failure ++ rest) =
      watchdogRun bootIp (e + k) rest := by
  induction k generalizing e with
  | zero => simp
  | succ k ih =>
    have h1 : ¬ e + 1 > 20 := by omega
    have h2 : (e + 1) + k ≤ 20 := by omega
    simp only [List.replicate_succ, List.cons_append, watchdogRun,
      watchdogStep, if_neg h1]
    have hrun := ih (e + 1) h2
    rw [show e + (k + 1) = (e + 1) + k from by omega]
    exact hrun

lemma watchdogRun_all_success (bootIp : String) (e : Nat)
    (ticks : List FetchOutcome)
    (h : ∀ t ∈ ticks, t = .success bootIp) :
    watchdogRun bootIp e ticks = .running e := by
  induction ticks with
  | nil => rfl
  | cons t rest ih =>
    have ht : t = .success bootIp := h t (List.mem_cons_self _ _)
    subst ht
    simp only [watchdogRun, watchdogStep_success_self]
    exact ih fun t hm => h t (List.mem_cons_of_mem _ hm)

lemma flatMap_peerSamples_length (t : List String)
    (l : List (String × PeerNode)) :
    (l.flatMap (peerSamples t)).length = 2 * l.length := by
  induction l with
  | nil => simp
  | cons kp rest ih =>
    simp only [List.flatMap_cons, List.length_append, ih, List.length_cons]
    simp [peerSamples]
    omega

lemma takeWhile_eq_self_of_all {p : Char → Bool} :
    ∀ l : List Char, (∀ c ∈ l, p c = true) → l.takeWhile p = l := by
  intro l h
  induction l with
  | nil => rfl
  | cons c cs ih =>
    rw [List.takeWhile_cons, if_pos (h c (List.mem_cons_self _ _))]
    rw [ih fun c hm => h c (List.mem_cons_of_mem _ hm)]

/- Concrete fixtures used by the witnesses and counterexamples. -/

/-- A self node with exactly one address. -/
def selfA : SelfNode :=
  ⟨"id0", "hostA", "hostA.tailnetxyz.ts.net", ["100.64.0.1"], 3, 4⟩

/-- A self node with zero addresses. -/
def selfNoIp : SelfNode :=
  ⟨"id0", "hostA", "hostA.tailnetxyz.ts.net", [], 3, 4⟩

/-- A peer with one address, rx=10, tx=20, user id 5. -/
def peerP1 : PeerNode :=
  ⟨"p1", "p1.tailnetxyz.ts.net", ["100.64.0.2"], 5, 10, 20⟩

/-- A peer with zero addresses. -/
def peerNoIp : PeerNode :=
  ⟨"p2", "p2.tailnetxyz.ts.net", [], 6, 30, 40⟩

/-- A snapshot with a well-formed self node and one well-formed peer. -/
def stGood : TailscaleStatus := ⟨selfA, [("k1", peerP1)]⟩

/-- A snapshot whose self node has zero addresses. -/
def stSelfBad : TailscaleStatus := ⟨selfNoIp, [("k1", peerP1)]⟩

/-- A snapshot with one well-formed peer followed by an addressless peer. -/
def stPeerBad : TailscaleStatus := ⟨selfA, [("k1", peerP1), ("k2", peerNoIp)]⟩

/-- A snapshot whose self node's first address differs from `selfA`'s,
while `selfA`'s address is still present later in the list. -/
def stDrift : TailscaleStatus :=
  ⟨⟨"id0", "hostA", "hostA.tailnetxyz.ts.net",
    ["100.64.0.9", "100.64.0.1"], 3, 4⟩, []⟩

/-- A stand-in for `json.Unmarshal` that decodes the string "ok" to
`stGood` and fails on everything else. -/
def decode0 : String → Option TailscaleStatus :=
  fun s => if s = "ok" then some stGood else none

/- Claim theorems. -/

/-- C1: for every decoded snapshot whose self node has at least one address
and whose N peers each have at least one address, one invocation of metric
collection panics nowhere and emits exactly 2N samples; the fixed label
name list has exactly 8 entries, every sample carries exactly that many
label values (positionally matching the fixed name order), and the first 4
label values of every sample equal the constant self-derived values, hence
are identical across all samples of the scrape. -/
theorem collect_emits_two_labeled_samples_per_peer (st : TailscaleStatus)
    (hself : st.self.tailscaleIPs ≠ [])
    (hpeers : ∀ kp ∈ st.peer, kp.2.tailscaleIPs ≠ ([] : List String)) :
    (Collect st).2 = none ∧
    (Collect st).1.length = 2 * st.peer.length ∧
    dynLabels.length = 8 ∧
    (∀ s ∈ (Collect st).1, s.labels.length = dynLabels.length) ∧
    (∀ s ∈ (Collect st).1,
      s.labels.take 4 =
        [st.self.id, st.self.hostName, givenName st.self.dnsName,
         st.self.tailscaleIPs.headD ""]) := by
  have hc := Collect_ok st hself hpeers
  refine ⟨by simp [hc], by rw [hc]; exact flatMap_peerSamples_length _ _,
    rfl, ?_, ?_⟩
  · intro s hs
    rw [hc] at hs
    rcases List.mem_flatMap.mp hs with ⟨kp, -, hm⟩
    simp only [peerSamples, List.mem_cons, List.not_mem_nil, or_false] at hm
    rcases hm with h | h <;> subst h <;> rfl
  · intro s hs
    rw [hc] at hs
    rcases List.mem_flatMap.mp hs with ⟨kp, -, hm⟩
    simp only [peerSamples, List.mem_cons, List.not_mem_nil, or_false] at hm
    rcases hm with h | h <;> subst h <;> rfl

/-- Witness for C1 at the concrete snapshot `stGood` (one peer). -/
theorem collect_emits_two_labeled_samples_per_peer_witness :
    (Collect stGood).2 = none ∧ (Collect stGood).1.length = 2 * stGood.peer.length := by
  obtain ⟨h1, h2, -, -, -⟩ :=
    collect_emits_two_labeled_samples_per_peer stGood (by decide) (by decide)
  exact ⟨h1, h2⟩

/-- C7: if the fetched snapshot's self node has zero addresses, collection
fails (panics) before emitting any sample: the result is the empty sample
list together with the self-no-address panic. -/
theorem collect_self_no_address_fails (st : TailscaleStatus)
    (h : st.self.tailscaleIPs = []) :
    Collect st = ([], some .selfNoAddress) := by
  simp [Collect, mkTemplate, h]

/-- Witness for C7 at the concrete snapshot `stSelfBad`. -/
theorem collect_self_no_address_fails_witness :
    Collect stSelfBad = ([], some .selfNoAddress) :=
  collect_self_no_address_fails stSelfBad rfl

/-- C8: on a snapshot where collection succeeds, the sequence of emitted
samples carries, per peer and in order, exactly the raw cumulative
received-byte and transmitted-byte counts reported by the snapshot, with no
rate computation, resetting, or alteration of the values. -/
theorem collect_values_raw_cumulative (st : TailscaleStatus)
    (hself : st.self.tailscaleIPs ≠ [])
    (hpeers : ∀ kp ∈ st.peer, kp.2.tailscaleIPs ≠ ([] : List String)) :
    (Collect st).1.map (fun s => (s.desc, s.value)) =
      st.peer.flatMap (fun kp =>
        [(MetricDesc.peerRx, kp.2.rxBytes), (MetricDesc.peerTx, kp.2.txBytes)]) := by
  rw [Collect_ok st hself hpeers]
  generalize st.peer = l
  induction l with
  | nil => rfl
  | cons kp rest ih =>
    simp only [List.flatMap_cons, List.map_append, ih]
    rfl

/-- Witness for C8 at the concrete snapshot `stGood`: the emitted values
are the snapshot's rx=10 and tx=20. -/
theorem collect_values_raw_cumulative_witness :
    (Collect stGood).1.map (fun s => (s.desc, s.value)) =
      [(MetricDesc.peerRx, (10 : Int)), (MetricDesc.peerTx, (20 : Int))] := by
  have h := collect_values_raw_cumulative stGood (by decide) (by decide)
  rw [h]
  rfl

/-- C9: metric collection is not atomic with respect to a per-peer
missing-address failure: if the peer list is any prefix of well-formed
peers followed by a peer with zero addresses, collection aborts with the
panic for that peer, but the two samples of every earlier peer have already
been emitted (2 times the prefix length samples). -/
theorem collect_not_atomic_on_peer_missing_address (st : TailscaleStatus)
    (pre : List (String × PeerNode)) (k : String) (bad : PeerNode)
    (post : List (String × PeerNode))
    (hself : st.self.tailscaleIPs ≠ [])
    (hsplit : st.peer = pre ++ (k, bad) :: post)
    (hpre : ∀ kp ∈ pre, kp.2.tailscaleIPs ≠ ([] : List String))
    (hbad : bad.tailscaleIPs = []) :
    Collect st =
      (pre.flatMap (peerSamples (templateOf st.self)),
       some (.peerNoAddress k)) ∧
    (Collect st).1.length = 2 * pre.length := by
  have hc : Collect st =
      (pre.flatMap (peerSamples (templateOf st.self)),
       some (.peerNoAddress k)) := by
    simp only [Collect, mkTemplate_eq st.self hself, hsplit]
    exact collectPeers_aborts _ pre k bad post hpre hbad
  refine ⟨hc, ?_⟩
  rw [hc]
  exact flatMap_peerSamples_length _ _

/-- Witness for C9 at the concrete snapshot `stPeerBad`: the scrape fails
on peer "k2" yet has already emitted the two samples for peer "k1" — a
non-zero, incomplete sample set. -/
theorem collect_not_atomic_on_peer_missing_address_witness :
    Collect stPeerBad =
      ([("k1", peerP1)].flatMap (peerSamples (templateOf stPeerBad.self)),
       some (.peerNoAddress "k2")) ∧
    (Collect stPeerBad).1.length = 2 * [("k1", peerP1)].length :=
  collect_not_atomic_on_peer_missing_address stPeerBad
    [("k1", peerP1)] "k2" peerNoIp [] (by decide) rfl (by decide) rfl

/-- C2 counterexample: after 19 consecutive fetch failures followed by one
successful fetch reporting the bound address, the failure counter is 19,
not 0 — the code never resets the counter on success. -/
theorem watchdog_success_reset_counterexample :
    watchdogRun "100.64.0.1" 0
      (List.replicate 19 .failure ++ [.success "100.64.0.1"]) =
      .running 19 ∧
    watchdogRun "100.64.0.1" 0
      (List.replicate 19 .failure ++ [.success "100.64.0.1"]) ≠
      .running 0 := by
  decide

/-- C2 amended: a tick whose fetch succeeds and whose observed self-address
equals the bound address leaves the failure counter unchanged (there is no
reset) and remains running; in particular, after 19 consecutive fetch
failures followed by one such success the counter is 19 and the watchdog
has not terminated. -/
theorem watchdog_success_keeps_counter :
    (∀ (bootIp : String) (e : Nat),
      watchdogStep bootIp e (.success bootIp) = .running e) ∧
    (∀ bootIp : String,
      watchdogRun bootIp 0
        (List.replicate 19 .failure ++ [.success bootIp]) = .running 19) := by
  refine ⟨watchdogStep_success_self, fun bootIp => ?_⟩
  rw [watchdogRun_failures_then bootIp 0 19 _ (by omega)]
  simp only [Nat.zero_add, watchdogRun, watchdogStep_success_self]

/-- C3 counterexample: starting from failure counter 0, a sequence of
exactly 20 consecutive fetch failures leaves the watchdog running with
counter 20 — it does not terminate, because the code panics only when the
counter exceeds 20. -/
theorem watchdog_twenty_failures_counterexample :
    watchdogRun "100.64.0.1" 0 (List.replicate 20 .failure) = .running 20 ∧
    watchdogRun "100.64.0.1" 0 (List.replicate 20 .failure) ≠
      .terminated .fetchExhaustion := by
  decide

/-- C3 amended: starting from failure counter 0, exactly 21 consecutive
fetch failures terminate the watchdog with fetch exhaustion; with 20 or
fewer consecutive failures it does not terminate for that reason and the
counter equals the number of failures. -/
theorem watchdog_failure_threshold :
    (∀ bootIp : String,
      watchdogRun bootIp 0 (List.replicate 21 .failure) =
        .terminated .fetchExhaustion) ∧
    (∀ (bootIp : String) (k : Nat), k ≤ 20 →
      watchdogRun bootIp 0 (List.replicate k .failure) = .running k) := by
  constructor
  · intro bootIp
    rfl
  · intro bootIp k hk
    have h := watchdogRun_failures bootIp 0 k (by omega)
    simpa using h

/-- Witness for C3 amended at 21 and at 20 failures. -/
theorem watchdog_failure_threshold_witness :
    watchdogRun "100.64.0.1" 0 (List.replicate 21 .failure) =
      .terminated .fetchExhaustion ∧
    watchdogRun "100.64.0.1" 0 (List.replicate 20 .failure) = .running 20 :=
  ⟨watchdog_failure_threshold.1 "100.64.0.1",
   watchdog_failure_threshold.2 "100.64.0.1" 20 (by decide)⟩

/-- C5: a watchdog run all of whose ticks fetch successfully and report the
bound address never leaves the running state (counter unchanged), and a
single tick whose fetch succeeds but reports a different address
transitions immediately to terminated with identity drift — no retry, no
grace period. -/
theorem watchdog_identity_drift_immediate :
    (∀ (bootIp : String) (e : Nat) (ticks : List FetchOutcome),
      (∀ t ∈ ticks, t = FetchOutcome.success bootIp) →
      watchdogRun bootIp e ticks = .running e) ∧
    (∀ (bootIp newIp : String) (e : Nat), newIp ≠ bootIp →
      watchdogStep bootIp e (.success newIp) =
        .terminated (.identityDrift bootIp newIp)) := by
  refine ⟨watchdogRun_all_success, fun bootIp newIp e h => ?_⟩
  simp [watchdogStep, h]

/-- Witness for C5: two matching ticks keep running with counter 3; one
mismatching tick terminates with identity drift. -/
theorem watchdog_identity_drift_immediate_witness :
    watchdogRun "100.64.0.1" 3
      [.success "100.64.0.1", .success "100.64.0.1"] = .running 3 ∧
    watchdogStep "100.64.0.1" 0 (.success "100.64.0.9") =
      .terminated (.identityDrift "100.64.0.1" "100.64.0.9") :=
  ⟨watchdog_identity_drift_immediate.1 "100.64.0.1" 3 _ (by decide),
   watchdog_identity_drift_immediate.2 "100.64.0.1" "100.64.0.9" 0 (by decide)⟩

/-- C10: the watchdog's identity comparison uses only the first element of
the self node's address list: on a successful fetch whose snapshot lists
addresses `first :: rest`, the tick terminates with identity drift exactly
when `first` differs from the boot address — regardless of `rest`, so even
when the boot address is still present there — and keeps running with the
counter unchanged whenever `first` equals the boot address. -/
theorem watchdog_compares_first_address_only (bootIp : String) (e : Nat)
    (st : TailscaleStatus) (first : String) (rest : List String)
    (h : st.self.tailscaleIPs = first :: rest) :
    (first ≠ bootIp →
      watchdogStep bootIp e (tickOutcome (.ok st)) =
        .terminated (.identityDrift bootIp first)) ∧
    (first = bootIp →
      watchdogStep bootIp e (tickOutcome (.ok st)) = .running e) := by
  have ht : tickOutcome (.ok st) = .success first := by
    simp [tickOutcome, getListenAddr, h]
  rw [ht]
  constructor
  · intro hne
    simp [watchdogStep, hne]
  · intro heq
    subst heq
    exact watchdogStep_success_self _ e

/-- Witness for C10: `stDrift` lists the boot address second but a
different address first, so the tick terminates; `stGood` lists the boot
address first, so the tick keeps running. -/
theorem watchdog_compares_first_address_only_witness :
    watchdogStep "100.64.0.1" 4 (tickOutcome (.ok stDrift)) =
      .terminated (.identityDrift "100.64.0.1" "100.64.0.9") ∧
    watchdogStep "100.64.0.1" 4 (tickOutcome (.ok stGood)) = .running 4 :=
  ⟨(watchdog_compares_first_address_only "100.64.0.1" 4 stDrift
      "100.64.0.9" ["100.64.0.1"] rfl).1 (by decide),
   (watchdog_compares_first_address_only "100.64.0.1" 4 stGood
      "100.64.0.1" [] rfl).2 rfl⟩

/-- C4 counterexample: an invocation with zero exit code and non-empty
stderr is not an error — the fetch decodes stdout and succeeds, because
the code never inspects the stderr buffer on the success path. -/
theorem fetch_stderr_only_counterexample :
    TailscaleGetStatus decode0 ⟨0, "ok", "warning: tailscale backend"⟩ =
      .ok stGood ∧
    "warning: tailscale backend" ≠ "" := by
  exact ⟨rfl, by decide⟩

/-- C4 amended: the fetch returns a command-failure error carrying the
diagnostic (stderr) text exactly when the status command invocation itself
fails (non-zero exit); a zero-exit invocation is never a command-failure
error, regardless of its diagnostic output. -/
theorem fetch_command_failure_iff_nonzero_exit
    (decode : String → Option TailscaleStatus) (r : CmdResult) :
    (r.exitCode ≠ 0 →
      TailscaleGetStatus decode r = .error (.commandFailure r.stderr)) ∧
    (r.exitCode = 0 → ∀ s : String,
      TailscaleGetStatus decode r ≠ .error (.commandFailure s)) := by
  constructor
  · intro h
    simp [TailscaleGetStatus, h]
  · intro h s
    simp only [TailscaleGetStatus, h, ne_eq, not_true_eq_false,
      if_false, ite_false]
    cases decode r.stdout <;> simp

/-- Witness for C4 amended: non-zero exit yields the command failure
carrying the stderr text; zero exit with non-empty stderr does not. -/
theorem fetch_command_failure_iff_nonzero_exit_witness :
    TailscaleGetStatus decode0 ⟨1, "ok", "boom"⟩ =
      .error (.commandFailure "boom") ∧
    TailscaleGetStatus decode0 ⟨0, "ok", "warn"⟩ ≠
      .error (.commandFailure "warn") :=
  ⟨(fetch_command_failure_iff_nonzero_exit decode0 ⟨1, "ok", "boom"⟩).1
      (by decide),
   (fetch_command_failure_iff_nonzero_exit decode0 ⟨0, "ok", "warn"⟩).2
      rfl "warn"⟩

/-- C6: for every DNS name, the derived given-name label is the prefix of
the name up to and excluding the first dot, and when the name contains no
dot it is the name itself. -/
theorem given_name_first_dot_segment (s : String) :
    (givenName s).data = s.data.takeWhile (fun c => c != '.') ∧
    ((∀ c ∈ s.data, c ≠ '.') → givenName s = s) := by
  refine ⟨givenName_data s, fun h => ?_⟩
  have hd : (givenName s).data = s.data := by
    rw [givenName_data s]
    exact takeWhile_eq_self_of_all s.data fun c hm => by
      simp [h c hm]
  cases s
  simpa using congrArg String.mk hd

/-- Witness for C6 at the dotless name "host1". -/
theorem given_name_first_dot_segment_witness :
    givenName "host1" = "host1" :=
  (given_name_first_dot_segment "host1").2 (by decide)
